import Mathlib

/-
  Verification development for the honestjs routing / component-composition core.

  The definitions below are shallow embeddings of the TypeScript sources:
  - path utilities               (src/utils: common.util.ts)
  - version resolution, fan-out  (src/managers/route.manager.ts, RouteManager.registerController)
  - component resolution         (src/managers/component.manager.ts, ComponentManager.getComponents)
  - metadata registration        (src/registries: MetadataRegistry)
  - exception dispatch           (ComponentManager.handleException / executeFilters)
  - default error formatting     (src/helpers: createErrorResponse)
  - the per-route dispatch wrapper (RouteManager.registerRoute, wrapperHandler)
-/

namespace Honest

/-! ## Path utilities (common.util.ts) -/

/-- Character-level test used by the slash handling below. -/
def isSlash (c : Char) : Bool := c = '/'

/-- Embedding of the regex replace of a trailing run of slashes:
`path.replace(/\/+$/, '')`. -/
def stripTrailingSlashes (cs : List Char) : List Char :=
  (cs.reverse.dropWhile isSlash).reverse

/-- Embedding of the global collapse of slash runs: `s.replace(/\/+/g, '/')`.
Each maximal run of slashes becomes a single slash. -/
def collapseSlashes : List Char → List Char
  | [] => []
  | [c] => [c]
  | c1 :: c2 :: rest =>
    if isSlash c1 && isSlash c2 then collapseSlashes (c2 :: rest)
    else c1 :: collapseSlashes (c2 :: rest)

/-- Embedding of `normalizePath` from common.util.ts:
`path ? (path.startsWith('/') ? ('/' + path.replace(/\/+$/, '')).replace(/\/+/g, '/')
: '/' + path.replace(/\/+$/, '')) : '/'`.
`none` models an `undefined` argument; the empty string is falsy in JS. -/
def normalizePath (path : Option String) : String :=
  match path with
  | none => "/"
  | some s =>
    if s = "" then "/"
    else if s.toList.head? = some '/' then
      String.mk (collapseSlashes ('/' :: stripTrailingSlashes s.toList))
    else
      String.mk ('/' :: stripTrailingSlashes s.toList)

/-- Embedding of JavaScript `a.startsWith(b)`. -/
def strStartsWith (s pre : String) : Bool :=
  pre.toList.isPrefixOf s.toList

/-! ## Versioning (route.manager.ts) -/

/-- A concrete (non-`undefined`) value of the TS type
`number | null | typeof VERSION_NEUTRAL | number[]`. -/
inductive VersionVal where
  | vnull
  | neutral
  | num (n : Nat)
  | list (ns : List Nat)
deriving DecidableEq

/-- Embedding of `RouteManager.formatVersionSegment`: `isNil(version)` and
`VERSION_NEUTRAL` give the empty segment, a number `n` gives `"/vN"`.
(The `list` case is unreachable at the source call sites, which only pass
numbers; JS `String(array)` is the comma join.) -/
def formatVersionSegment : VersionVal → String
  | .vnull => ""
  | .neutral => ""
  | .num n => "/v" ++ toString n
  | .list ns => "/v" ++ String.intercalate "," (ns.map toString)

/-- Embedding of
`controllerOptions.version !== undefined ? controllerOptions.version : this.globalVersion`.
`none` models `undefined`. -/
def effectiveControllerVersion (globalVersion ctrlVersion : Option VersionVal) :
    Option VersionVal :=
  match ctrlVersion with
  | some v => some v
  | none => globalVersion

/-- Embedding of
`routeVersion !== undefined ? routeVersion : effectiveControllerVersion`. -/
def effectiveRouteVersion (effCtrl routeVersion : Option VersionVal) : Option VersionVal :=
  match routeVersion with
  | some v => some v
  | none => effCtrl

/-- Embedding of the private `RouteManager.normalizePath` for string inputs
(`isString(path)` always holds at the embedded call sites, so it defers to
the utility `normalizePath`). -/
def rmNormalizePath (s : String) : String := normalizePath (some s)

/-- Embedding of `RouteManager.buildRoutePath`:
`normalizePath(`${prefix}${version}${controllerPath}${methodPath}`)`. -/
def buildRoutePath (pfxSeg versionSeg ctrlSeg methodSeg : String) : String :=
  normalizePath (some (pfxSeg ++ versionSeg ++ ctrlSeg ++ methodSeg))

/-- One entry of the read-only route catalog (`RouteRegistry.registerRoute`
call inside `RouteManager.registerRoute`). `pfx` embeds the source field
named for the route prefix. -/
structure RouteInfo where
  controller : String
  handler : String
  method : String
  pfx : String
  version : String
  route : String
  path : String
  fullPath : String
deriving DecidableEq

/-- One declared route (`RouteDefinition`): `version` is
`none` for `undefined`, `some .vnull` for an explicit `null`. -/
structure RouteDef where
  path : String
  method : String
  handlerName : String
  version : Option VersionVal
deriving DecidableEq

/-- Controller options: the first layer of `Option` models presence
(`undefined` vs set), the inner one a `null` prefix. -/
structure ControllerOpts where
  pfx : Option (Option String)
  version : Option VersionVal

/-- The RouteInfo produced by one `registerRoute` call. -/
def mkRouteInfo (ctrlName handlerName method pfxSeg versionSeg ctrlSeg methodSeg : String) :
    RouteInfo :=
  { controller := ctrlName, handler := handlerName, method := method, pfx := pfxSeg,
    version := versionSeg, route := ctrlSeg, path := methodSeg,
    fullPath := buildRoutePath pfxSeg versionSeg ctrlSeg methodSeg }

/-- Embedding of the catalog effect of `RouteManager.registerController`:
for each declared route, resolve the effective version
(handler over controller over global, `null` included), then fan out into
version segments exactly as the source's `isNil` / `VERSION_NEUTRAL` /
`Array.isArray` / numeric branches do, producing one `RouteInfo` per
emitted registration. -/
def registerControllerRoutes (globalPfx : Option String) (globalVersion : Option VersionVal)
    (ctrlName controllerPath : String) (opts : ControllerOpts) (routes : List RouteDef) :
    List RouteInfo :=
  let effPfx : Option String :=
    match opts.pfx with
    | some (some s) => some s
    | _ => globalPfx
  let pfxSegment : String :=
    match effPfx with
    | some s => rmNormalizePath s
    | none => ""
  let ctrlSegment := rmNormalizePath controllerPath
  let effCtrlVer := effectiveControllerVersion globalVersion opts.version
  routes.flatMap (fun route =>
    let effVer := effectiveRouteVersion effCtrlVer route.version
    let methodSegment := rmNormalizePath route.path
    let mk := fun vseg =>
      mkRouteInfo ctrlName route.handlerName route.method pfxSegment vseg ctrlSegment
        methodSegment
    match effVer with
    | none => [mk ""]
    | some .vnull => [mk ""]
    | some .neutral => [mk "", mk "/:version\x7bv[0-9]+\x7d"]
    | some (.list ns) => ns.map (fun n => mk (formatVersionSegment (.num n)))
    | some (.num n) => [mk (formatVersionSegment (.num n))])

/-! ## Component registration and resolution (MetadataRegistry, ComponentManager) -/

/-- The four component kinds of `ComponentType`. -/
inductive ComponentKind where
  | middleware
  | guard
  | pipe
  | filterKind
deriving DecidableEq

/-- Embedding of `MetadataRegistry.registerGlobal`: the global bucket is a JS
`Set`, so `add` keeps insertion order, and adding a reference already present
is a no-op. Component references are modelled by their identity as `Nat`. -/
def registerGlobalSet (l : List Nat) (c : Nat) : List Nat :=
  if c ∈ l then l else l ++ [c]

/-- Embedding of the array `push` used by `MetadataRegistry.registerController`,
`registerHandler` and `registerGlobalWithPath`. -/
def registerPush {α : Type} (l : List α) (c : α) : List α := l ++ [c]

/-- The component buckets of `MetadataRegistry` that
`ComponentManager.getComponents` reads: global per kind, path-scoped global
per kind, controller scope keyed by controller name, handler scope keyed by
the `"Ctrl:handler"` string. -/
structure ComponentRegistry where
  global : ComponentKind → List Nat
  globalWithPath : ComponentKind → List (String × Nat)
  controller : ComponentKind → String → List Nat
  handler : ComponentKind → String → List Nat

/-- Embedding of `ComponentManager.getComponents` (the current, path-aware
overload): middleware merges only controller and handler scopes; every other
kind prepends the global set and the path-scoped globals whose normalized
registered path is a string prefix of `routePath`. -/
def getComponents (reg : ComponentRegistry) (kind : ComponentKind)
    (ctrlName handlerName routePath : String) : List Nat :=
  let handlerKey := ctrlName ++ ":" ++ handlerName
  let handlerComponents := reg.handler kind handlerKey
  let controllerComponents := reg.controller kind ctrlName
  if kind = .middleware then controllerComponents ++ handlerComponents
  else
    let globalComponents := reg.global kind
    let matching :=
      ((reg.globalWithPath kind).filter
          (fun c => strStartsWith routePath (normalizePath (some c.1)))).map Prod.snd
    globalComponents ++ matching ++ controllerComponents ++ handlerComponents

/-! ## JS runtime values, errors, and the default error formatter -/

/-- The JavaScript runtime values flowing through handlers, filters and
pipes: enough structure to express the `undefined` / `null` / string /
truthiness distinctions the source code branches on. `response` is an
opaque `Response` object. -/
inductive JsVal where
  | undef
  | nullv
  | boolVal (b : Bool)
  | str (s : String)
  | num (n : Int)
  | obj (id : Nat)
  | response (id : Nat)
deriving DecidableEq

/-- JavaScript truthiness of a runtime value. -/
def jsTruthy : JsVal → Bool
  | .undef => false
  | .nullv => false
  | .boolVal b => b
  | .str s => s ≠ ""
  | .num n => n ≠ 0
  | .obj _ => true
  | .response _ => true

/-- Embedding of the `isNil` utility on runtime values
(`val === null || typeof val === 'undefined'`). -/
def isNilVal : JsVal → Bool
  | .undef => true
  | .nullv => true
  | _ => false

/-- An error reaching exception dispatch: either Hono's `HTTPException`
(carrying a declared status and message), or a generic `Error` with `name`,
`message`, `stack`, and possibly status-like numeric fields `statusCode` /
`status`. -/
inductive Err where
  | httpEx (status : Nat) (msg : String)
  | generic (name msg stack : String) (statusCode statusField : Option Nat)
deriving DecidableEq

/-- JS truthiness of a possibly-absent numeric field (`0` is falsy). -/
def numTruthy : Option Nat → Bool
  | some n => n ≠ 0
  | none => false

/-- JS `a || b` for a possibly-absent number `a`. -/
def orNum (o : Option Nat) (d : Nat) : Nat :=
  if numTruthy o then o.getD 0 else d

/-- JS `a || b` for a possibly-absent string `a` (the empty string is falsy). -/
def orStr (o : Option String) (d : String) : String :=
  match o with
  | some s => if s = "" then d else s
  | none => d

/-- The value of the `details` field of an error response: either a custom
details record (opaque) or the development-mode `{ stack }` object. -/
inductive DetailsVal where
  | custom (id : Nat)
  | stackTrace (s : String)
deriving DecidableEq

/-- The request context data that `createErrorResponse` and
`handleException` read from the Hono context: the stashed controller class
and handler name, the request path, the request id, the value
`new Date().toISOString()` would produce now, and `process.env.NODE_ENV`. -/
structure Ctx where
  controllerClass : Option String
  handlerName : Option String
  reqPath : String
  requestId : Option String
  nowIso : String
  nodeEnv : String
deriving DecidableEq

/-- The `options` argument of `createErrorResponse`. -/
structure ErrOptions where
  status : Option Nat
  title : Option String
  detail : Option String
  code : Option String
  additionalDetails : Option Nat
deriving DecidableEq

/-- The `ErrorResponse` body shape built by `createErrorResponse`. -/
structure ErrorResponse where
  status : Nat
  message : String
  timestamp : String
  path : String
  requestId : Option String
  code : Option String
  details : Option DetailsVal
  detail : Option String
deriving DecidableEq

/-- The return value of `createErrorResponse`:
`{ response: ErrorResponse; status: ContentfulStatusCode }`. -/
structure ErrRespPair where
  response : ErrorResponse
  status : Nat
deriving DecidableEq

/-- Embedding of `createErrorResponse` (helpers): the `HTTPException` branch,
the branch for errors with a truthy `statusCode`/`status` field, and the
default 500 branch whose message and details depend on `NODE_ENV`. -/
def createErrorResponse (e : Err) (ctx : Ctx) (opts : Option ErrOptions) : ErrRespPair :=
  let timestamp := ctx.nowIso
  let requestId := ctx.requestId
  let path := ctx.reqPath
  let oStatus := opts.bind ErrOptions.status
  let oTitle := opts.bind ErrOptions.title
  let oDetail := opts.bind ErrOptions.detail
  let oCode := opts.bind ErrOptions.code
  let oAdd := opts.bind ErrOptions.additionalDetails
  let detailField : Option String :=
    match oDetail with
    | some d => if d = "" then none else some d
    | none => none
  match e with
  | .httpEx status msg =>
    let st := orNum oStatus status
    ⟨{ status := st, message := orStr oTitle msg, timestamp := timestamp, path := path,
       requestId := requestId, code := oCode, details := oAdd.map DetailsVal.custom,
       detail := detailField }, st⟩
  | .generic name msg stack statusCode statusField =>
    if numTruthy statusCode || numTruthy statusField then
      let defaultStatus := if numTruthy statusCode then statusCode.getD 0 else statusField.getD 0
      let st := orNum oStatus defaultStatus
      ⟨{ status := st, message := orStr oTitle msg, timestamp := timestamp, path := path,
         requestId := requestId, code := some (orStr oCode name),
         details := oAdd.map DetailsVal.custom, detail := detailField }, st⟩
    else
      let st := orNum oStatus 500
      let message :=
        orStr oTitle (if ctx.nodeEnv = "production" then "Internal Server Error" else msg)
      let details : Option DetailsVal :=
        match oAdd with
        | some a => some (.custom a)
        | none => if ctx.nodeEnv = "development" then some (.stackTrace stack) else none
      ⟨{ status := st, message := message, timestamp := timestamp, path := path,
         requestId := requestId, code := some (orStr oCode name), details := details,
         detail := detailField }, st⟩

/-! ## Exception dispatch (ComponentManager.handleException / executeFilters) -/

/-- Observable events of one request: which guards, parameter factories,
pipes, the handler, and which filters actually ran, plus the log lines the
dispatcher emits. -/
inductive Ev where
  | guardRun (id : Nat)
  | factoryRun (idx : Nat)
  | pipeRun (id : Nat)
  | handlerRun
  | filterRun (id : Nat)
  | filterCaught (id : Nat)
  | defaultLogged
deriving DecidableEq

/-- Behavior of one exception filter's `catch`: it resolves to a runtime
value (`undefined` meaning "did not handle"), or it throws. -/
inductive FilterB where
  | ret (v : JsVal)
  | thrw
deriving DecidableEq

/-- One registered exception filter, identified by `id`. -/
structure FilterSpec where
  id : Nat
  behavior : FilterB
deriving DecidableEq

/-- Embedding of `ComponentManager.executeFilters`: run filters in order;
a thrown `catch` is logged and skipped; the first result with
`result !== undefined` is returned and ends the loop; otherwise the loop
returns `undefined`. The first component is the trace of events. -/
def executeFilters : List FilterSpec → List Ev × Option JsVal
  | [] => ([], none)
  | f :: rest =>
    match f.behavior with
    | .thrw =>
      let r := executeFilters rest
      (Ev.filterRun f.id :: Ev.filterCaught f.id :: r.1, r.2)
    | .ret v =>
      if v = .undef then
        let r := executeFilters rest
        (Ev.filterRun f.id :: r.1, r.2)
      else ([Ev.filterRun f.id], some v)

/-- The filter buckets of `MetadataRegistry` read by `handleException`:
handler scope keyed by `"Ctrl:handler"`, controller scope keyed by the
controller name, the global set, and the path-scoped globals. -/
structure FilterRegistry where
  handlerF : String → List FilterSpec
  controllerF : String → List FilterSpec
  globalF : List FilterSpec
  globalPathF : List (String × FilterSpec)

/-- JS truthiness of the `Response | undefined` produced by a filter chain
(`if (response) return response`). -/
def truthyOpt : Option JsVal → Bool
  | some v => jsTruthy v
  | none => false

/-- What exception dispatch ultimately returns: a truthy filter-provided
value, or the default `context.json(createErrorResponse(exception, context))`
response (note: the whole `{response, status}` pair is the JSON body, and
`context.json` is called without a status argument). -/
inductive DispatchResult where
  | filtered (v : JsVal)
  | jsonDefault (pair : ErrRespPair)
deriving DecidableEq

/-- Truthiness of the stashed handler name (`context.get('handlerName')`):
absent is `undefined` (falsy) and the empty string is falsy. -/
def handlerNameTruthy : Option String → Bool
  | some s => s ≠ ""
  | none => false

/-- Embedding of `ComponentManager.handleException`: handler-scope filters
(only when both the controller class and a truthy handler name are stashed
in the context), then controller-scope filters, then the global filters
merged with the path-scoped globals whose normalized path is a string
prefix of the request path; each scope is consulted only if non-empty and
its result is used only if truthy; otherwise the default error response is
logged and synthesized. -/
def handleException (e : Err) (ctx : Ctx) (reg : FilterRegistry) :
    List Ev × DispatchResult :=
  let path := ctx.reqPath
  let s1 :=
    match ctx.controllerClass, ctx.handlerName with
    | some c, some h =>
      if h ≠ "" then
        let hf := reg.handlerF (c ++ ":" ++ h)
        if hf.length > 0 then executeFilters hf else ([], none)
      else ([], none)
    | _, _ => ([], none)
  if truthyOpt s1.2 then (s1.1, .filtered (s1.2.getD .undef))
  else
    let s2 :=
      match ctx.controllerClass with
      | some c =>
        let cf := reg.controllerF c
        if cf.length > 0 then executeFilters cf else ([], none)
      | none => ([], none)
    if truthyOpt s2.2 then (s1.1 ++ s2.1, .filtered (s2.2.getD .undef))
    else
      let allG := reg.globalF ++
        ((reg.globalPathF.filter
            (fun pf => strStartsWith path (normalizePath (some pf.1)))).map Prod.snd)
      let s3 := if allG.length > 0 then executeFilters allG else ([], none)
      if truthyOpt s3.2 then (s1.1 ++ s2.1 ++ s3.1, .filtered (s3.2.getD .undef))
      else
        (s1.1 ++ s2.1 ++ s3.1 ++ [Ev.defaultLogged],
         .jsonDefault (createErrorResponse e ctx none))

/-- HTTP status of a dispatch outcome, where determined by the core: a
filter-provided `Response` carries its own status (unknown here); the
default branch calls Hono's `context.json(body)` with no status argument,
which responds 200. -/
def dispatchHttpStatus : DispatchResult → Option Nat
  | .filtered _ => none
  | .jsonDefault _ => some 200

/-! ## Reference dispatcher (the amended claim C1, stated in its own words) -/

/-- Reference scope chain, worded from the amended claim: filters run in
registration order; a filter whose catch throws is caught, logged and
skipped; the first filter resolving to a non-`undefined` value ends the
chain with that value as the scope's result. -/
def chainScan : List FilterSpec → List Ev × Option JsVal
  | [] => ([], none)
  | f :: rest =>
    match f.behavior with
    | .thrw =>
      let r := chainScan rest
      (Ev.filterRun f.id :: Ev.filterCaught f.id :: r.1, r.2)
    | .ret v =>
      if v = .undef then
        let r := chainScan rest
        (Ev.filterRun f.id :: r.1, r.2)
      else ([Ev.filterRun f.id], some v)

/-- Reference scope walk: consult the scopes in the given order; a scope
result is final only if truthy, otherwise dispatch proceeds to the next
scope; with no truthy scope result the default response is logged and
synthesized. -/
def dispatchScopes (defPair : ErrRespPair) : List (List FilterSpec) → List Ev × DispatchResult
  | [] => ([Ev.defaultLogged], .jsonDefault defPair)
  | s :: rest =>
    let r := chainScan s
    if truthyOpt r.2 then (r.1, .filtered (r.2.getD .undef))
    else
      let d := dispatchScopes defPair rest
      (r.1 ++ d.1, d.2)

/-- The scope order of the amended claim: handler scope (only with both
identities stashed), controller scope (only with the controller stashed),
then global merged with the matching path-scoped globals. -/
def referenceScopes (ctx : Ctx) (reg : FilterRegistry) : List (List FilterSpec) :=
  (match ctx.controllerClass, ctx.handlerName with
   | some c, some h => if h ≠ "" then [reg.handlerF (c ++ ":" ++ h)] else []
   | _, _ => []) ++
  (match ctx.controllerClass with
   | some c => [reg.controllerF c]
   | none => []) ++
  [reg.globalF ++
    ((reg.globalPathF.filter
        (fun pf => strStartsWith ctx.reqPath (normalizePath (some pf.1)))).map Prod.snd)]

/-- The dispatcher as the amended claim describes it. -/
def dispatchReference (e : Err) (ctx : Ctx) (reg : FilterRegistry) :
    List Ev × DispatchResult :=
  dispatchScopes (createErrorResponse e ctx none) (referenceScopes ctx reg)

/-! ## The per-route dispatch wrapper (RouteManager.registerRoute) -/

/-- Behavior of one guard's `canActivate`: resolves to a boolean or throws. -/
inductive GuardB where
  | ret (b : Bool)
  | thrw (e : Err)
deriving DecidableEq

/-- One resolved guard, identified by `id`. -/
structure GuardSpec where
  id : Nat
  behavior : GuardB
deriving DecidableEq

/-- Embedding of the guard loop of the wrapper handler: guards run
sequentially; a thrown check propagates; a falsy result raises
`new HTTPException(403, { message: 'Forbidden' })`. -/
def runGuards : List GuardSpec → List Ev × Option Err
  | [] => ([], none)
  | g :: rest =>
    match g.behavior with
    | .thrw e => ([Ev.guardRun g.id], some e)
    | .ret b =>
      if b then
        let r := runGuards rest
        (Ev.guardRun g.id :: r.1, r.2)
      else ([Ev.guardRun g.id], some (Err.httpEx 403 "Forbidden"))

/-- Behavior of one parameter factory: produces a raw value or throws. -/
inductive FacB where
  | ret (v : JsVal)
  | thrw (e : Err)
deriving DecidableEq

/-- One `ParameterMetadata` record: the positional index, the metadata the
pipes receive, and the factory's behavior on this request. -/
structure ParamSpec where
  index : Nat
  ptype : String
  metatype : Option Nat
  pdata : Option String
  factory : FacB
deriving DecidableEq

/-- The `ArgumentMetadata` handed to each pipe's `transform`. -/
structure ArgMeta where
  type : String
  metatype : Option Nat
  data : Option String
deriving DecidableEq

/-- One resolved pipe: `transform` maps a value and its metadata to a new
value or throws. -/
structure PipeSpec where
  id : Nat
  transform : JsVal → ArgMeta → Except Err JsVal

/-- Embedding of `ComponentManager.executePipes`: thread the value through
the pipes in order, each output feeding the next; a throw propagates. -/
def executePipes (v : JsVal) (meta : ArgMeta) : List PipeSpec → List Ev × Except Err JsVal
  | [] => ([], .ok v)
  | p :: rest =>
    match p.transform v meta with
    | .error e => ([Ev.pipeRun p.id], .error e)
    | .ok v2 =>
      let r := executePipes v2 meta rest
      (Ev.pipeRun p.id :: r.1, r.2)

/-- Embedding of the parameter loop: for each declared parameter, invoke its
factory, thread the raw value through the handler's pipe chain, and store
the result at the parameter's `index` in the argument array. -/
def runParams (pipes : List PipeSpec) (args : List JsVal) :
    List ParamSpec → List Ev × Except Err (List JsVal)
  | [] => ([], .ok args)
  | p :: rest =>
    match p.factory with
    | .thrw e => ([Ev.factoryRun p.index], .error e)
    | .ret raw =>
      let r := executePipes raw { type := p.ptype, metatype := p.metatype, data := p.pdata }
        pipes
      match r.2 with
      | .error e => (Ev.factoryRun p.index :: r.1, .error e)
      | .ok v =>
        let r2 := runParams pipes (args.set p.index v) rest
        ((Ev.factoryRun p.index :: r.1) ++ r2.1, r2.2)

/-- The wrapper's possible responses: the handler's value passed through
unchanged (raw-context case), `c.json(...)`, `c.text(...)`, or the outcome
of exception dispatch. -/
inductive Resp where
  | raw (v : JsVal)
  | json (v : JsVal)
  | text (s : String)
  | dispatched (d : DispatchResult)
deriving DecidableEq

/-- Embedding of the serialization tail of the wrapper handler: a recorded
context-parameter index returns the result unchanged; `isNil(result)` gives
`c.json(null)`; a string gives `c.text(result)`; anything else gives
`c.json(result)`. -/
def serializeResult (contextIndex : Option Nat) (result : JsVal) : Resp :=
  if contextIndex.isSome then .raw result
  else if isNilVal result then .json .nullv
  else
    match result with
    | .str s => .text s
    | v => .json v

/-- Everything one registered route's wrapper closure captures: the stashed
identities, the resolved guards and pipes, the parameter metadata, the
handler (arity and behavior on the assembled argument array), the recorded
raw-context parameter index, and the filter registry used on error. -/
structure WrapperEnv where
  ctrlName : String
  handlerName : String
  guards : List GuardSpec
  pipes : List PipeSpec
  params : List ParamSpec
  handlerLen : Nat
  handler : List JsVal → Except Err JsVal
  contextIndex : Option Nat
  filters : FilterRegistry

/-- The wrapper's first step: stash the controller class and handler name
into the request context (`c.set('controllerClass', ...)`,
`c.set('handlerName', ...)`) for exception dispatch to read. -/
def ctxStash (env : WrapperEnv) (ctx : Ctx) : Ctx :=
  { ctx with controllerClass := some env.ctrlName, handlerName := some env.handlerName }

/-- Embedding of the wrapper closure built by `RouteManager.registerRoute`:
stash the controller class and handler name into the context, check the
guards, assemble the arguments via factories and pipes, call the handler,
serialize its result; any error thrown on the way is handed to
`handleException`. -/
def wrapperHandler (env : WrapperEnv) (ctx : Ctx) : List Ev × Resp :=
  let ctx1 := ctxStash env ctx
  let g := runGuards env.guards
  match g.2 with
  | some e =>
    let d := handleException e ctx1 env.filters
    (g.1 ++ d.1, .dispatched d.2)
  | none =>
    let args0 := List.replicate env.handlerLen JsVal.undef
    let pr := runParams env.pipes args0 env.params
    match pr.2 with
    | .error e =>
      let d := handleException e ctx1 env.filters
      (g.1 ++ pr.1 ++ d.1, .dispatched d.2)
    | .ok args =>
      match env.handler args with
      | .error e =>
        let d := handleException e ctx1 env.filters
        (g.1 ++ pr.1 ++ [Ev.handlerRun] ++ d.1, .dispatched d.2)
      | .ok result =>
        (g.1 ++ pr.1 ++ [Ev.handlerRun], serializeResult env.contextIndex result)

/-! ## Concrete fixtures used by counterexamples and witnesses -/

/-- The trace produced by a run of filters that all decline (throw or
resolve to `undefined`). -/
def declineTrace (l : List FilterSpec) : List Ev :=
  l.flatMap (fun x =>
    match x.behavior with
    | .thrw => [Ev.filterRun x.id, Ev.filterCaught x.id]
    | _ => [Ev.filterRun x.id])

/-- A filter registry with no filters registered at any scope. -/
def noFilters : FilterRegistry :=
  { handlerF := fun _ => [], controllerF := fun _ => [], globalF := [], globalPathF := [] }

/-- A request context with no stashed identities (error before routing). -/
def ctx404 : Ctx :=
  { controllerClass := none, handlerName := none, reqPath := "/x", requestId := none,
    nowIso := "2026-01-01T00:00:00.000Z", nodeEnv := "production" }

/-- A request context with controller `C` and handler `h` stashed. -/
def ctxCH : Ctx :=
  { controllerClass := some "C", handlerName := some "h", reqPath := "/x", requestId := none,
    nowIso := "t", nodeEnv := "production" }

/-- A handler-scope filter resolving to `null`, plus a global filter
resolving to a real response. -/
def regNullThenGlobal : FilterRegistry :=
  { handlerF := fun key => if key = "C:h" then [⟨1, .ret .nullv⟩] else [],
    controllerF := fun _ => [],
    globalF := [⟨2, .ret (.response 9)⟩],
    globalPathF := [] }

/-- A single handler-scope filter resolving to `null`; nothing else. -/
def regNullOnly : FilterRegistry :=
  { handlerF := fun key => if key = "C:h" then [⟨1, .ret .nullv⟩] else [],
    controllerF := fun _ => [], globalF := [], globalPathF := [] }

/-- A registry whose handler scope holds the same component reference
pushed twice. -/
def dupHandlerReg : ComponentRegistry :=
  { global := fun _ => [], globalWithPath := fun _ => [],
    controller := fun _ _ => [],
    handler := fun k key =>
      if k = .guard ∧ key = "C:h" then registerPush (registerPush [] 7) 7 else [] }

/-- One global guard `1`, one controller guard `2`, one handler guard `3`,
built through the registration operations. -/
def g1g2g3Reg : ComponentRegistry :=
  { global := fun k => if k = .guard then registerGlobalSet [] 1 else [],
    globalWithPath := fun _ => [],
    controller := fun k c => if k = .guard ∧ c = "C" then registerPush [] 2 else [],
    handler := fun k key => if k = .guard ∧ key = "C:h" then registerPush [] 3 else [] }

/-- A plain request context for wrapper runs. -/
def ctx0 : Ctx :=
  { controllerClass := none, handlerName := none, reqPath := "/users", requestId := none,
    nowIso := "t0", nodeEnv := "production" }

/-- A wrapper environment whose handler returns the string `"ok"` with no
guards, parameters or pipes and no raw-context parameter. -/
def envTextOk : WrapperEnv :=
  { ctrlName := "C", handlerName := "h", guards := [], pipes := [], params := [],
    handlerLen := 0, handler := fun _ => .ok (.str "ok"), contextIndex := none,
    filters := noFilters }

/-- A wrapper environment whose second guard denies the request. -/
def envGuardDeny : WrapperEnv :=
  { ctrlName := "C", handlerName := "h",
    guards := [⟨1, .ret true⟩, ⟨2, .ret false⟩, ⟨3, .ret true⟩],
    pipes := [], params := [], handlerLen := 0, handler := fun _ => .ok .undef,
    contextIndex := none, filters := noFilters }

/-! ## Supporting lemmas -/

theorem executeFilters_cons_thrw (x : FilterSpec) (l : List FilterSpec)
    (hx : x.behavior = .thrw) :
    executeFilters (x :: l) =
      (Ev.filterRun x.id :: Ev.filterCaught x.id :: (executeFilters l).1,
       (executeFilters l).2) := by
  simp [executeFilters, hx]

theorem executeFilters_cons_undef (x : FilterSpec) (l : List FilterSpec)
    (hx : x.behavior = .ret .undef) :
    executeFilters (x :: l) =
      (Ev.filterRun x.id :: (executeFilters l).1, (executeFilters l).2) := by
  simp [executeFilters, hx]

theorem executeFilters_cons_val (x : FilterSpec) (l : List FilterSpec) (v : JsVal)
    (hx : x.behavior = .ret v) (hv : v ≠ .undef) :
    executeFilters (x :: l) = ([Ev.filterRun x.id], some v) := by
  simp [executeFilters, hx, hv]

theorem executeFilters_first_hit
    (pre : List FilterSpec) (f : FilterSpec) (rest : List FilterSpec) (v : JsVal)
    (hpre : ∀ x ∈ pre, x.behavior = .thrw ∨ x.behavior = .ret .undef)
    (hf : f.behavior = .ret v) (hv : v ≠ .undef) :
    executeFilters (pre ++ f :: rest) = (declineTrace pre ++ [Ev.filterRun f.id], some v) := by
  induction pre with
  | nil =>
    rw [List.nil_append, executeFilters_cons_val f rest v hf hv]
    simp [declineTrace]
  | cons x xs ih =>
    have hx := hpre x (List.mem_cons_self x xs)
    have hxs : ∀ y ∈ xs, y.behavior = .thrw ∨ y.behavior = .ret .undef :=
      fun y hy => hpre y (List.mem_cons_of_mem x hy)
    have hrec := ih hxs
    rcases hx with hx | hx
    · rw [List.cons_append, executeFilters_cons_thrw x _ hx, hrec]
      simp [declineTrace, hx]
    · rw [List.cons_append, executeFilters_cons_undef x _ hx, hrec]
      simp [declineTrace, hx]

theorem truthyOpt_none : truthyOpt none = false := rfl

theorem executeFilters_guarded (l : List FilterSpec) :
    (if l.length > 0 then executeFilters l else (([] : List Ev), (none : Option JsVal))) =
      executeFilters l := by
  cases l with
  | nil => simp [executeFilters]
  | cons x xs => simp

theorem chainScan_eq_executeFilters : ∀ l : List FilterSpec, chainScan l = executeFilters l := by
  intro l
  induction l with
  | nil => rfl
  | cons x xs ih =>
    cases hx : x.behavior with
    | thrw => simp [chainScan, executeFilters, hx, ih]
    | ret v =>
      by_cases hv : v = .undef
      · subst hv; simp [chainScan, executeFilters, hx, ih]
      · simp [chainScan, executeFilters, hx, hv, ih]

theorem handleException_eq_reference (e : Err) (ctx : Ctx) (reg : FilterRegistry) :
    handleException e ctx reg = dispatchReference e ctx reg := by
  unfold handleException dispatchReference referenceScopes
  cases hc : ctx.controllerClass with
  | none =>
    simp only [dispatchScopes, chainScan_eq_executeFilters, executeFilters_guarded,
      List.nil_append]
    by_cases h3 : truthyOpt (executeFilters (reg.globalF ++
        ((reg.globalPathF.filter
            (fun pf => strStartsWith ctx.reqPath (normalizePath (some pf.1)))).map
          Prod.snd))).2 = true
    · simp [h3, truthyOpt_none]
    · simp [h3, truthyOpt_none]
  | some c =>
    cases hh : ctx.handlerName with
    | none =>
      simp only [dispatchScopes, chainScan_eq_executeFilters, executeFilters_guarded,
        List.nil_append, List.cons_append]
      by_cases h2 : truthyOpt (executeFilters (reg.controllerF c)).2 = true
      · simp [h2, truthyOpt_none]
      · by_cases h3 : truthyOpt (executeFilters (reg.globalF ++
            ((reg.globalPathF.filter
                (fun pf => strStartsWith ctx.reqPath (normalizePath (some pf.1)))).map
              Prod.snd))).2 = true
        · simp [h2, h3, truthyOpt_none]
        · simp [h2, h3, truthyOpt_none]
    | some h =>
      by_cases hne : h = ""
      · subst hne
        simp only [dispatchScopes, chainScan_eq_executeFilters, executeFilters_guarded,
          List.nil_append, List.cons_append, if_neg (by simp : ¬("" : String) ≠ "")]
        by_cases h2 : truthyOpt (executeFilters (reg.controllerF c)).2 = true
        · simp [h2, truthyOpt_none]
        · by_cases h3 : truthyOpt (executeFilters (reg.globalF ++
              ((reg.globalPathF.filter
                  (fun pf => strStartsWith ctx.reqPath (normalizePath (some pf.1)))).map
                Prod.snd))).2 = true
          · simp [h2, h3, truthyOpt_none]
          · simp [h2, h3, truthyOpt_none]
      · simp only [dispatchScopes, chainScan_eq_executeFilters, executeFilters_guarded,
          List.nil_append, List.cons_append, if_pos hne]
        by_cases h1 : truthyOpt (executeFilters (reg.handlerF (c ++ ":" ++ h))).2 = true
        · simp [h1, truthyOpt_none]
        · by_cases h2 : truthyOpt (executeFilters (reg.controllerF c)).2 = true
          · simp [h1, h2, truthyOpt_none]
          · by_cases h3 : truthyOpt (executeFilters (reg.globalF ++
                ((reg.globalPathF.filter
                    (fun pf => strStartsWith ctx.reqPath (normalizePath (some pf.1)))).map
                  Prod.snd))).2 = true
            · simp [h1, h2, h3, truthyOpt_none]
            · simp [h1, h2, h3, truthyOpt_none, List.append_assoc]

theorem executeFilters_trace_events (l : List FilterSpec) :
    ∀ ev ∈ (executeFilters l).1,
      (∃ i, ev = Ev.filterRun i) ∨ ∃ i, ev = Ev.filterCaught i := by
  induction l with
  | nil => intro ev hev; simp [executeFilters] at hev
  | cons x xs ih =>
    intro ev hev
    cases hx : x.behavior with
    | thrw =>
      rw [executeFilters_cons_thrw x xs hx] at hev
      simp only [List.mem_cons] at hev
      rcases hev with rfl | rfl | hev
      · exact Or.inl ⟨x.id, rfl⟩
      · exact Or.inr ⟨x.id, rfl⟩
      · exact ih ev hev
    | ret v =>
      by_cases hv : v = .undef
      · subst hv
        rw [executeFilters_cons_undef x xs hx] at hev
        simp only [List.mem_cons] at hev
        rcases hev with rfl | hev
        · exact Or.inl ⟨x.id, rfl⟩
        · exact ih ev hev
      · rw [executeFilters_cons_val x xs v hx hv] at hev
        simp only [List.mem_cons, List.not_mem_nil, or_false] at hev
        subst hev
        exact Or.inl ⟨x.id, rfl⟩

theorem dispatchScopes_trace_events (defPair : ErrRespPair) (scopes : List (List FilterSpec)) :
    ∀ ev ∈ (dispatchScopes defPair scopes).1,
      (∃ i, ev = Ev.filterRun i) ∨ (∃ i, ev = Ev.filterCaught i) ∨ ev = Ev.defaultLogged := by
  induction scopes with
  | nil =>
    intro ev hev
    simp [dispatchScopes] at hev
    simp [hev]
  | cons s rest ih =>
    intro ev hev
    simp only [dispatchScopes] at hev
    by_cases hts : truthyOpt (chainScan s).2 = true
    · rw [if_pos hts] at hev
      simp only at hev
      have hmem : ev ∈ (executeFilters s).1 := by
        rw [← chainScan_eq_executeFilters]; exact hev
      rcases executeFilters_trace_events s ev hmem with h | h
      · exact Or.inl h
      · exact Or.inr (Or.inl h)
    · rw [if_neg hts] at hev
      simp only at hev
      rcases List.mem_append.mp hev with h | h
      · have hmem : ev ∈ (executeFilters s).1 := by
          rw [← chainScan_eq_executeFilters]; exact h
        rcases executeFilters_trace_events s ev hmem with h2 | h2
        · exact Or.inl h2
        · exact Or.inr (Or.inl h2)
      · exact ih ev h

theorem handleException_trace_events (e : Err) (ctx : Ctx) (reg : FilterRegistry) :
    ∀ ev ∈ (handleException e ctx reg).1,
      (∃ i, ev = Ev.filterRun i) ∨ (∃ i, ev = Ev.filterCaught i) ∨ ev = Ev.defaultLogged := by
  rw [handleException_eq_reference]
  exact dispatchScopes_trace_events _ _

theorem runGuards_first_false (pre : List GuardSpec) (g : GuardSpec) (post : List GuardSpec)
    (hpre : ∀ x ∈ pre, x.behavior = .ret true) (hg : g.behavior = .ret false) :
    runGuards (pre ++ g :: post) =
      (pre.map (fun x => Ev.guardRun x.id) ++ [Ev.guardRun g.id],
       some (Err.httpEx 403 "Forbidden")) := by
  induction pre with
  | nil => simp [runGuards, hg]
  | cons x xs ih =>
    have hx := hpre x (List.mem_cons_self x xs)
    have hxs : ∀ y ∈ xs, y.behavior = .ret true :=
      fun y hy => hpre y (List.mem_cons_of_mem x hy)
    rw [List.cons_append]
    simp only [runGuards, hx, if_pos rfl, ih hxs]
    simp

/-! ## Claim theorems -/

/-- C1 (amended): for every thrown error, exception dispatch behaves exactly
like the reference scope walk: scopes are consulted in the order handler
(when both identities are stashed), controller (when the controller is
stashed), then global merged with the matching path-scoped globals; within a
scope, filters run in registration order, a throwing filter is logged and
skipped, and the first filter resolving to a non-`undefined` value ends that
scope's chain; the scope's value is final only if truthy, otherwise dispatch
continues with the next scope and, past the last, the default response. -/
theorem c1_dispatch_scope_refinement (e : Err) (ctx : Ctx) (reg : FilterRegistry) :
    handleException e ctx reg = dispatchReference e ctx reg :=
  handleException_eq_reference e ctx reg

/-- C1 counterexample: the handler-scope filter `1` is the first filter whose
catch returns a non-`undefined` value (`null`), yet it does not supply the
final response and the global filter `2` still runs: the final response is
filter `2`'s. -/
theorem c1_counterexample_null_filter :
    regNullThenGlobal.handlerF "C:h" = [⟨1, FilterB.ret JsVal.nullv⟩] ∧
    handleException (.httpEx 500 "boom") ctxCH regNullThenGlobal =
      ([Ev.filterRun 1, Ev.filterRun 2], .filtered (JsVal.response 9)) ∧
    (handleException (.httpEx 500 "boom") ctxCH regNullThenGlobal).2 ≠
      .filtered JsVal.nullv ∧
    Ev.filterRun 2 ∈ (handleException (.httpEx 500 "boom") ctxCH regNullThenGlobal).1 := by
  refine ⟨by decide, by decide, by decide, by decide⟩

/-- C2 (code bug): with no filters registered, an `HTTPException` with
declared status 404 produces a `createErrorResponse` pair whose inner
response carries status 404, the message, the timestamp and the request
path; but `handleException` passes the whole pair to `context.json` with no
status argument, so the HTTP status of the returned response is 200, not
404, and the JSON body is the `{response, status}` wrapper rather than the
response object itself. -/
theorem c2_default_response_code_bug :
    handleException (.httpEx 404 "Not Found") ctx404 noFilters =
      ([Ev.defaultLogged],
       .jsonDefault
         { response := { status := 404, message := "Not Found",
                         timestamp := "2026-01-01T00:00:00.000Z", path := "/x",
                         requestId := none, code := none, details := none, detail := none },
           status := 404 }) ∧
    dispatchHttpStatus (handleException (.httpEx 404 "Not Found") ctx404 noFilters).2 =
      some 200 ∧
    (createErrorResponse (.httpEx 404 "Not Found") ctx404 none).status = 404 ∧
    (200 : Nat) ≠ 404 := by
  refine ⟨by decide, by decide, by decide, by decide⟩

/-- C3 (confirmed): for every non-middleware kind, `getComponents` is exactly
the concatenation global ++ matching-path-scoped ++ controller ++ handler,
where the path bucket keeps exactly the registrations whose normalized path
is a string prefix of the request path, in registration order; for
middleware it is exactly controller ++ handler; and one global guard 1, one
controller guard 2 and one handler guard 3 resolve to `[1, 2, 3]`. -/
theorem c3_getComponents_buckets :
    (∀ (reg : ComponentRegistry) (kind : ComponentKind) (c h p : String),
      kind ≠ .middleware →
      getComponents reg kind c h p =
        reg.global kind ++
        ((reg.globalWithPath kind).filter
            (fun q => strStartsWith p (normalizePath (some q.1)))).map Prod.snd ++
        reg.controller kind c ++ reg.handler kind (c ++ ":" ++ h)) ∧
    (∀ (reg : ComponentRegistry) (c h p : String),
      getComponents reg .middleware c h p =
        reg.controller .middleware c ++ reg.handler .middleware (c ++ ":" ++ h)) ∧
    getComponents g1g2g3Reg .guard "C" "h" "/users" = [1, 2, 3] := by
  refine ⟨?_, fun reg c h p => rfl, by decide⟩
  intro reg kind c h p hk
  simp [getComponents, hk]

theorem c3_getComponents_buckets_witness :
    ComponentKind.guard ≠ ComponentKind.middleware ∧
    getComponents g1g2g3Reg .guard "C" "h" "/" = [1, 2, 3] :=
  ⟨by decide,
   (c3_getComponents_buckets.1 g1g2g3Reg .guard "C" "h" "/" (by decide)).trans (by decide)⟩

/-- C4 (confirmed): the effective version is resolved with strict precedence
handler > controller > global; an explicit `null` at the route level ends
inheritance, so with global version 1, controller version absent and route
version `null`, the route registers at the unversioned `/path`, not
`/v1/path`. -/
theorem c4_version_precedence :
    (∀ (g c : Option VersionVal) (v : VersionVal),
      effectiveRouteVersion (effectiveControllerVersion g c) (some v) = some v) ∧
    (∀ (g : Option VersionVal) (v : VersionVal),
      effectiveRouteVersion (effectiveControllerVersion g (some v)) none = some v) ∧
    (∀ g : Option VersionVal,
      effectiveRouteVersion (effectiveControllerVersion g none) none = g) ∧
    (∀ g : Option VersionVal,
      registerControllerRoutes none g "C" "" { pfx := none, version := none }
        [{ path := "path", method := "get", handlerName := "h", version := some .vnull }] =
      [{ controller := "C", handler := "h", method := "get", pfx := "", version := "",
         route := "/", path := "/path", fullPath := "/path" }]) ∧
    (registerControllerRoutes none (some (.num 1)) "C" "" { pfx := none, version := none }
        [{ path := "path", method := "get", handlerName := "h", version := some .vnull }]).map
        RouteInfo.fullPath = ["/path"] ∧
    (registerControllerRoutes none (some (.num 1)) "C" "" { pfx := none, version := none }
        [{ path := "path", method := "get", handlerName := "h", version := some .vnull }]).map
        RouteInfo.fullPath ≠ ["/v1/path"] := by
  refine ⟨fun g c v => rfl, fun g v => rfl, fun g => rfl, fun g => rfl, by decide, by decide⟩

/-- C5 (confirmed): version fan-out per route — absent or `null` effective
version gives exactly one catalog entry with the empty version segment; the
neutral marker gives exactly two (empty segment and the single-version
wildcard-capture segment); a number `n` gives exactly one `/vN` entry; an
array gives one entry per element, duplicates included, and `[1, 2]` gives
exactly two entries whose full paths differ only in `/v1` vs `/v2`. -/
theorem c5_version_fanout :
    (registerControllerRoutes none none "C" "" { pfx := none, version := none }
      [{ path := "path", method := "get", handlerName := "h", version := none }] =
     [{ controller := "C", handler := "h", method := "get", pfx := "", version := "",
        route := "/", path := "/path", fullPath := "/path" }]) ∧
    (registerControllerRoutes none none "C" "" { pfx := none, version := none }
      [{ path := "path", method := "get", handlerName := "h", version := some .vnull }] =
     [{ controller := "C", handler := "h", method := "get", pfx := "", version := "",
        route := "/", path := "/path", fullPath := "/path" }]) ∧
    (registerControllerRoutes none none "C" "" { pfx := none, version := none }
      [{ path := "path", method := "get", handlerName := "h", version := some .neutral }] =
     [{ controller := "C", handler := "h", method := "get", pfx := "", version := "",
        route := "/", path := "/path", fullPath := "/path" },
      { controller := "C", handler := "h", method := "get", pfx := "",
        version := "/:version\x7bv[0-9]+\x7d", route := "/", path := "/path",
        fullPath := "/:version\x7bv[0-9]+\x7d/path" }]) ∧
    (∀ n : Nat,
      (registerControllerRoutes none none "C" "" { pfx := none, version := none }
        [{ path := "path", method := "get", handlerName := "h",
           version := some (.num n) }]).map RouteInfo.version = ["/v" ++ toString n]) ∧
    (∀ ns : List Nat,
      (registerControllerRoutes none none "C" "" { pfx := none, version := none }
        [{ path := "path", method := "get", handlerName := "h",
           version := some (.list ns) }]).map RouteInfo.version =
        ns.map (fun n => "/v" ++ toString n)) ∧
    (∀ ns : List Nat,
      (registerControllerRoutes none none "C" "" { pfx := none, version := none }
        [{ path := "path", method := "get", handlerName := "h",
           version := some (.list ns) }]).length = ns.length) ∧
    (registerControllerRoutes none none "C" "" { pfx := none, version := none }
      [{ path := "path", method := "get", handlerName := "h",
         version := some (.list [1, 1]) }] =
     [{ controller := "C", handler := "h", method := "get", pfx := "", version := "/v1",
        route := "/", path := "/path", fullPath := "/v1/path" },
      { controller := "C", handler := "h", method := "get", pfx := "", version := "/v1",
        route := "/", path := "/path", fullPath := "/v1/path" }]) ∧
    (registerControllerRoutes none none "C" "" { pfx := none, version := none }
      [{ path := "path", method := "get", handlerName := "h",
         version := some (.list [1, 2]) }] =
     [{ controller := "C", handler := "h", method := "get", pfx := "", version := "/v1",
        route := "/", path := "/path", fullPath := "/v1/path" },
      { controller := "C", handler := "h", method := "get", pfx := "", version := "/v2",
        route := "/", path := "/path", fullPath := "/v2/path" }]) := by
  refine ⟨by decide, by decide, by decide, fun n => rfl, ?_, ?_, by decide, by decide⟩
  · intro ns
    simp only [registerControllerRoutes, effectiveControllerVersion, effectiveRouteVersion,
      List.flatMap_cons, List.flatMap_nil, List.append_nil, List.map_map]
    rfl
  · intro ns
    simp only [registerControllerRoutes, effectiveControllerVersion, effectiveRouteVersion,
      List.flatMap_cons, List.flatMap_nil, List.append_nil, List.length_map]

/-- C6 (confirmed): per invocation of a dispatch closure whose guards all
pass and whose parameter processing and handler succeed, the response is the
serialization of the handler's result: with a recorded raw-context parameter
index the result is returned unchanged; otherwise a `null`/`undefined`
result becomes a JSON null body, a string becomes a plain-text body, and
anything else becomes a JSON body. -/
theorem c6_serialization_policy :
    ∀ (env : WrapperEnv) (ctx : Ctx) (t1 t2 : List Ev) (args : List JsVal) (r : JsVal),
      runGuards env.guards = (t1, none) →
      runParams env.pipes (List.replicate env.handlerLen JsVal.undef) env.params =
        (t2, Except.ok args) →
      env.handler args = .ok r →
      wrapperHandler env ctx =
        (t1 ++ t2 ++ [Ev.handlerRun], serializeResult env.contextIndex r) ∧
      (env.contextIndex.isSome → serializeResult env.contextIndex r = .raw r) ∧
      (env.contextIndex = none → isNilVal r = true →
        serializeResult env.contextIndex r = .json .nullv) ∧
      (env.contextIndex = none → ∀ s, r = .str s →
        serializeResult env.contextIndex r = .text s) ∧
      (env.contextIndex = none → isNilVal r = false → (∀ s, r ≠ .str s) →
        serializeResult env.contextIndex r = .json r) := by
  intro env ctx t1 t2 args r hg hp hh
  refine ⟨?_, ?_, ?_, ?_, ?_⟩
  · simp only [wrapperHandler, hg, hp, hh]
  · intro hsome
    simp [serializeResult, hsome]
  · intro hnone hnil
    simp [serializeResult, hnone, hnil]
  · intro hnone s hs
    subst hs
    simp [serializeResult, hnone, isNilVal]
  · intro hnone hnil hstr
    cases r with
    | undef => simp [isNilVal] at hnil
    | nullv => simp [isNilVal] at hnil
    | str s => exact absurd rfl (hstr s)
    | boolVal b => simp [serializeResult, hnone, hnil]
    | num n => simp [serializeResult, hnone, hnil]
    | obj i => simp [serializeResult, hnone, hnil]
    | response i => simp [serializeResult, hnone, hnil]

theorem c6_serialization_policy_witness :
    wrapperHandler envTextOk ctx0 = ([Ev.handlerRun], Resp.text "ok") :=
  ((c6_serialization_policy envTextOk ctx0 [] [] [] (.str "ok") rfl rfl rfl).1).trans
    (by decide)

/-- C7 (confirmed): when the guards resolved for a route are some prefix of
passing guards followed by one whose check resolves to `false`, the wrapper
runs exactly those guards in order, aborts with the 403 Forbidden
`HTTPException` routed through exception dispatch, and the request trace
contains no parameter-factory run, no pipe run and no handler run (exception
dispatch itself only runs filters and the default formatter). -/
theorem c7_guard_short_circuit :
    ∀ (env : WrapperEnv) (ctx : Ctx) (pre : List GuardSpec) (g : GuardSpec)
      (post : List GuardSpec),
      env.guards = pre ++ g :: post →
      (∀ x ∈ pre, x.behavior = .ret true) →
      g.behavior = .ret false →
      wrapperHandler env ctx =
        (pre.map (fun x => Ev.guardRun x.id) ++ [Ev.guardRun g.id] ++
           (handleException (Err.httpEx 403 "Forbidden") (ctxStash env ctx) env.filters).1,
         .dispatched
           (handleException (Err.httpEx 403 "Forbidden") (ctxStash env ctx) env.filters).2) ∧
      (∀ ev ∈ (wrapperHandler env ctx).1,
        (∀ i, ev ≠ Ev.factoryRun i) ∧ (∀ i, ev ≠ Ev.pipeRun i) ∧ ev ≠ Ev.handlerRun) ∧
      (∀ ev ∈ (handleException (Err.httpEx 403 "Forbidden") (ctxStash env ctx)
          env.filters).1, ∀ i, ev ≠ Ev.guardRun i) := by
  intro env ctx pre g post hgs hpre hg
  have hrun : runGuards env.guards =
      (pre.map (fun x => Ev.guardRun x.id) ++ [Ev.guardRun g.id],
       some (Err.httpEx 403 "Forbidden")) := by
    rw [hgs]; exact runGuards_first_false pre g post hpre hg
  have hmain : wrapperHandler env ctx =
      (pre.map (fun x => Ev.guardRun x.id) ++ [Ev.guardRun g.id] ++
         (handleException (Err.httpEx 403 "Forbidden") (ctxStash env ctx) env.filters).1,
       .dispatched
         (handleException (Err.httpEx 403 "Forbidden") (ctxStash env ctx) env.filters).2) := by
    simp only [wrapperHandler, hrun]
  refine ⟨hmain, ?_, ?_⟩
  case refine_2 =>
    intro ev hev i
    rcases handleException_trace_events _ _ _ ev hev with ⟨j, hj⟩ | ⟨j, hj⟩ | hj <;>
      subst hj <;> simp
  intro ev hev
  rw [hmain] at hev
  simp only at hev
  rcases List.mem_append.mp hev with h | h
  · rcases List.mem_append.mp h with h | h
    · rcases List.mem_map.mp h with ⟨x, _, hx⟩
      subst hx
      refine ⟨fun i => by simp, fun i => by simp, by simp⟩
    · simp only [List.mem_singleton] at h
      subst h
      refine ⟨fun i => by simp, fun i => by simp, by simp⟩
  · rcases handleException_trace_events _ _ _ ev h with ⟨i, hi⟩ | ⟨i, hi⟩ | hi <;> subst hi
    · refine ⟨fun j => by simp, fun j => by simp, by simp⟩
    · refine ⟨fun j => by simp, fun j => by simp, by simp⟩
    · refine ⟨fun j => by simp, fun j => by simp, by simp⟩

theorem c7_guard_short_circuit_witness :
    wrapperHandler envGuardDeny ctx0 =
      ([Ev.guardRun 1, Ev.guardRun 2, Ev.defaultLogged],
       .dispatched (.jsonDefault
         (createErrorResponse (.httpEx 403 "Forbidden") (ctxStash envGuardDeny ctx0) none))) :=
  ((c7_guard_short_circuit envGuardDeny ctx0 [⟨1, .ret true⟩] ⟨2, .ret false⟩
      [⟨3, .ret true⟩] rfl (by decide) rfl).1).trans (by decide)

/-- C8 (code bug): `normalizePath` does not collapse repeated slashes when
the input lacks a leading slash, so it is not idempotent: it maps `a//b` to
`/a//b`, but renormalizing that gives `/a/b`, contradicting the function's
own documentation and the claimed idempotence. -/
theorem c8_normalizePath_code_bug :
    normalizePath (some "a//b") = "/a//b" ∧
    normalizePath (some (normalizePath (some "a//b"))) = "/a/b" ∧
    normalizePath (some (normalizePath (some "a//b"))) ≠ normalizePath (some "a//b") := by
  decide

/-- C9 (amended): registration is append-only and order-preserving at every
scope — the already-registered list is always a prefix of the new list; at
controller, handler and path-scoped-global scopes every registration appends
one entry, so registering the same reference twice yields two entries whose
resolved execution order equals registration order; the global scope however
is a JS Set: a reference not yet present is appended, and re-registering a
present reference is a no-op leaving a single entry at its original
position. -/
theorem c9_registration_append_only :
    (∀ (l : List Nat) (c : Nat), l <+: registerGlobalSet l c) ∧
    (∀ (l : List Nat) (c : Nat), c ∉ l → registerGlobalSet l c = l ++ [c]) ∧
    (∀ (l : List Nat) (c : Nat), c ∈ l → registerGlobalSet l c = l) ∧
    (∀ (α : Type) (l : List α) (c : α), registerPush l c = l ++ [c]) ∧
    getComponents dupHandlerReg .guard "C" "h" "/" = [7, 7] := by
  refine ⟨?_, ?_, ?_, fun α l c => rfl, by decide⟩
  · intro l c
    unfold registerGlobalSet
    split
    · exact List.prefix_refl l
    · exact ⟨[c], rfl⟩
  · intro l c h
    simp [registerGlobalSet, h]
  · intro l c h
    simp [registerGlobalSet, h]

theorem c9_registration_append_only_witness :
    (5 : Nat) ∉ ([] : List Nat) ∧ registerGlobalSet [] 5 = [] ++ [5] ∧
    (5 : Nat) ∈ [5] ∧ registerGlobalSet [5] 5 = [5] :=
  ⟨by decide, c9_registration_append_only.2.1 [] 5 (by decide), by decide,
   c9_registration_append_only.2.2.1 [5] 5 (by decide)⟩

/-- C9 counterexample: registering the same component reference twice at the
global scope yields one entry, not two — the global bucket is a Set. -/
theorem c9_counterexample_global_set_dedup :
    registerGlobalSet (registerGlobalSet [] 5) 5 = [5] ∧
    (registerGlobalSet (registerGlobalSet [] 5) 5).length ≠ 2 := by
  decide

/-- C10 (amended): within one scope's chain only `undefined` counts as "did
not handle": filters before the first one resolving to a non-`undefined`
value run in order (throwers logged and skipped), that filter's value ends
the scope's chain and no later filter of the scope runs; but the dispatcher
takes a scope's value as the final response only if it is truthy — a filter
resolving to `null` ends its scope yet dispatch continues, and with no other
filter the default error formatter still runs and `null` is not the final
response. -/
theorem c10_filter_undefined_semantics :
    (∀ (pre : List FilterSpec) (f : FilterSpec) (rest : List FilterSpec) (v : JsVal),
      (∀ x ∈ pre, x.behavior = .thrw ∨ x.behavior = .ret .undef) →
      f.behavior = .ret v → v ≠ .undef →
      executeFilters (pre ++ f :: rest) =
        (declineTrace pre ++ [Ev.filterRun f.id], some v)) ∧
    (∀ (e : Err) (ctx : Ctx) (reg : FilterRegistry) (c h : String) (i : Nat),
      ctx.controllerClass = some c → ctx.handlerName = some h → h ≠ "" →
      reg.handlerF (c ++ ":" ++ h) = [⟨i, .ret .nullv⟩] →
      reg.controllerF c = [] → reg.globalF = [] → reg.globalPathF = [] →
      handleException e ctx reg =
        ([Ev.filterRun i, Ev.defaultLogged],
         .jsonDefault (createErrorResponse e ctx none))) := by
  constructor
  · exact executeFilters_first_hit
  · intro e ctx reg c h i hc hh hne hhf hcf hg hgp
    simp only [handleException, hc, hh, hhf, hcf, hg, hgp]
    rw [if_pos hne]
    simp [executeFilters, truthyOpt, jsTruthy]

theorem c10_filter_undefined_semantics_witness :
    executeFilters [⟨1, .thrw⟩, ⟨2, FilterB.ret JsVal.nullv⟩, ⟨3, .ret (.response 4)⟩] =
      ([Ev.filterRun 1, Ev.filterCaught 1, Ev.filterRun 2], some JsVal.nullv) ∧
    handleException (.httpEx 400 "Bad") ctxCH regNullOnly =
      ([Ev.filterRun 1, Ev.defaultLogged],
       .jsonDefault (createErrorResponse (.httpEx 400 "Bad") ctxCH none)) :=
  ⟨(c10_filter_undefined_semantics.1 [⟨1, .thrw⟩] ⟨2, .ret .nullv⟩ [⟨3, .ret (.response 4)⟩]
      .nullv (by decide) rfl (by decide)).trans (by decide),
   c10_filter_undefined_semantics.2 (.httpEx 400 "Bad") ctxCH regNullOnly "C" "h" 1 rfl rfl
     (by decide) (by decide) rfl rfl rfl⟩

/-- C10 counterexample: a handler-scope filter whose catch resolves to
`null` (non-`undefined`) does not terminate dispatch with `null` as the
final response: the default error formatter still runs. -/
theorem c10_counterexample_null_not_final :
    regNullOnly.handlerF "C:h" = [⟨1, FilterB.ret JsVal.nullv⟩] ∧
    handleException (.httpEx 400 "Bad") ctxCH regNullOnly =
      ([Ev.filterRun 1, Ev.defaultLogged],
       .jsonDefault (createErrorResponse (.httpEx 400 "Bad") ctxCH none)) ∧
    (handleException (.httpEx 400 "Bad") ctxCH regNullOnly).2 ≠ .filtered JsVal.nullv ∧
    Ev.defaultLogged ∈ (handleException (.httpEx 400 "Bad") ctxCH regNullOnly).1 := by
  refine ⟨by decide, by decide, by decide, by decide⟩

end Honest
